import Mathlib

/-!
Shallow embedding of the Baidu-OCR batch-processing repository
(`src/OCR_GitHub_Project/src/baidu_ocr_integration.py`,
`baidu_ocr_batch_processor.py`, `retry_failed_files.py`).

Pure Python string/list manipulation is translated to Lean functions over
`String`/`List`; the stateful pieces (credential state, processor counters,
retry loop) are translated to explicit state passing, with the remote OCR
call and the filesystem abstracted as oracle parameters (the claims under
check quantify over their behaviour).
-/

/-! ## Python string helpers

`pyStrip` models Python `str.strip()` (drop Unicode whitespace from both
ends); `pyJoin sep` models `sep.join(...)`; `lowerStr`/`upperStr` model
`str.lower()`/`str.upper()` (per-character case mapping, which agrees with
Python on the ASCII file names and extensions this code handles). -/

/-- Python's whitespace test, as used by `str.strip()`/`str.isspace()`: the
ASCII whitespace controls and space, the C1 separators U+001C-U+001F, NEL
U+0085, NBSP U+00A0, Ogham space U+1680, the U+2000-U+200A spaces, line and
paragraph separators U+2028/U+2029, U+202F, U+205F, and ideographic space
U+3000.  (Lean's `Char.isWhitespace` covers only space/tab/CR/LF, which
would be strictly narrower than the program's stripping.) -/
def pyIsSpace (c : Char) : Bool :=
  decide ((0x09 ≤ c.toNat ∧ c.toNat ≤ 0x0D) ∨ c.toNat = 0x20 ∨
    (0x1C ≤ c.toNat ∧ c.toNat ≤ 0x1F) ∨ c.toNat = 0x85 ∨ c.toNat = 0xA0 ∨
    c.toNat = 0x1680 ∨ (0x2000 ≤ c.toNat ∧ c.toNat ≤ 0x200A) ∨
    c.toNat = 0x2028 ∨ c.toNat = 0x2029 ∨ c.toNat = 0x202F ∨
    c.toNat = 0x205F ∨ c.toNat = 0x3000)

def stripChars (l : List Char) : List Char :=
  ((l.dropWhile pyIsSpace).reverse.dropWhile pyIsSpace).reverse

def pyStrip (s : String) : String :=
  ⟨stripChars s.data⟩

def pyJoin (sep : String) : List String → String
  | [] => ""
  | [s] => s
  | s :: t :: rest => s ++ sep ++ pyJoin sep (t :: rest)

def lowerStr (s : String) : String :=
  ⟨s.data.map Char.toLower⟩

def upperStr (s : String) : String :=
  ⟨s.data.map Char.toUpper⟩

/-- Model of Python `str.split(sep)` for a one-character separator, on
character lists: `splitOnChar c l` cuts `l` at every occurrence of `c`. -/
def splitOnChar (c : Char) : List Char → List (List Char)
  | [] => [[]]
  | a :: rest =>
    match splitOnChar c rest, decide (a = c) with
    | r, true => [] :: r
    | [], false => [[a]]
    | h :: t, false => (a :: h) :: t

/-- Model of Python `str.split(sep)` / the line structure of `sep.join`. -/
def splitStr (c : Char) (s : String) : List String :=
  (splitOnChar c s.data).map (fun l => ⟨l⟩)

/-- Model of the glob pattern `*{suf}` used in `get_image_files` /
`process_batch`: the file name matches iff `suf` is a suffix of it. -/
def strEndsWith (s suf : String) : Bool :=
  decide (suf.data.length ≤ s.data.length ∧
    s.data.drop (s.data.length - suf.data.length) = suf.data)

/-! ## Data model of the OCR response dictionaries

`baidu_ocr_integration.convert_to_markdown` reads `ocr_result['words_result']`,
a list of entries carrying `words` (text) and `location.top` (vertical
position); `convert_table_to_markdown` reads `table_result['form_result']`, a
list of row dictionaries that may or may not carry a `'row'` key (a list of
cell strings).  Both keys are optional in the dictionaries, hence `Option`
fields; a form row lacking the `'row'` key is `none`. -/

structure WordBox where
  words : String
  top : Int
deriving DecidableEq, Repr

structure OCRDict where
  words_result : Option (List WordBox)
  form_result : Option (List (Option (List String)))
deriving DecidableEq, Repr

/-! ## Layout reconstructor (`BaiduOCRClient.convert_to_markdown`,
`convert_table_to_markdown`, baidu_ocr_integration.py lines 208-275) -/

/-- Flush step `if current_line.strip(): lines.append(current_line.strip())`. -/
def flushLine (lines : List String) (cur : String) : List String :=
  if pyStrip cur = "" then lines else lines ++ [pyStrip cur]

/-- The word loop of `convert_to_markdown`: `cur` is `current_line`,
`lastY` is `last_y` (`none` before the first word), `lines` the accumulator.
When `last_y is not None and abs(y - last_y) > 20`, the accumulated line is
flushed (trimmed) and `current_line = word`; otherwise
`current_line += " " + word`. -/
def mdLoop : List WordBox → String → Option Int → List String → List String
  | [], cur, _, lines => flushLine lines cur
  | w :: rest, cur, lastY, lines =>
    match lastY with
    | some ly =>
      if (w.top - ly).natAbs > 20 then
        mdLoop rest w.words (some w.top) (flushLine lines cur)
      else
        mdLoop rest (cur ++ " " ++ w.words) (some w.top) lines
    | none => mdLoop rest (cur ++ " " ++ w.words) (some w.top) lines

/-- Function `convert_to_markdown`: returns `""` when `'words_result'` is absent,
otherwise runs the word loop and joins the lines with `'\n'.join(lines)`. -/
def convertToMarkdown (d : OCRDict) : String :=
  match d.words_result with
  | none => ""
  | some ws => pyJoin "\n" (mdLoop ws "" none [])

/-- Function `convert_table_to_markdown`: falls back to `convert_to_markdown` when
`'form_result'` is absent; returns `""` when `form_result` is empty or no row
dictionary carries a `'row'` key; otherwise renders the first extracted row
as a header line plus a `---` separator line (one `---` per header cell) and
every later row as a pipe-delimited data line. -/
def convertTableToMarkdown (d : OCRDict) : String :=
  match d.form_result with
  | none => convertToMarkdown d
  | some fr =>
    if fr = [] then ""
    else
      match fr.filterMap id with
      | [] => ""
      | headers :: rest =>
        pyJoin "\n"
          (("| " ++ pyJoin " | " headers ++ " |") ::
           ("| " ++ pyJoin " | " (List.replicate headers.length "---") ++ " |") ::
           rest.map (fun r => "| " ++ pyJoin " | " r ++ " |"))

/-! ## Retrying pipeline (`RetryFailedFiles.process_with_retry`,
retry_failed_files.py lines 29-106)

The call `self.processor.process_single_image(...)` is abstracted as an
oracle from the attempt index to what that call does: returns `True`
(`.ok`), returns `False` — which `process_single_image` does exactly when
the converted content is empty (`.noContent`) — or raises (`.exn msg`).
The `time.sleep(2 ** attempt)` calls are logged in a delay list.  The two
`except` branches (lines 87-94) differ only in the printed message — a QPS
rate-limit message and any other exception retry under exactly the same
`attempt < max_retries - 1` condition — so they are one branch here.
Python's `attempt < max_retries - 1` over integers is rendered as
`attempt + 1 < maxR` to avoid truncated subtraction.  The returned
dictionary is projected to the fields the claims speak about:
`success`, `error`, `retries`. -/

inductive AttemptResult where
  | ok
  | noContent
  | exn (msg : String)
deriving DecidableEq, Repr

structure RetryOutcome where
  success : Bool
  error : Option String
  retries : Nat
deriving DecidableEq, Repr

/-- Error string of the empty-content / exhausted-retries failure outcome
(retry_failed_files.py line 81: `'error': '百度OCR处理失败'`). -/
def genericFailMsg : String := "百度OCR处理失败"

/-- Backoff bookkeeping at the top of the loop body: when `attempt > 0`,
`time.sleep(2 ** attempt)` runs before the processing call, so the delay is
appended to the log of slept delays. -/
def nextDelays (att : Nat) (delays : List Nat) : List Nat :=
  if 0 < att then delays ++ [2 ^ att] else delays

def goRetry (oracle : Nat → AttemptResult) (maxR : Nat) :
    Nat → Nat → List Nat → Option RetryOutcome × List Nat
  | 0, _, delays => (none, delays)
  | rem + 1, att, delays =>
    match oracle att with
    | .ok => (some ⟨true, none, att⟩, nextDelays att delays)
    | .noContent =>
      if att + 1 < maxR then goRetry oracle maxR rem (att + 1) (nextDelays att delays)
      else (some ⟨false, some genericFailMsg, att⟩, nextDelays att delays)
    | .exn msg =>
      if att + 1 < maxR then goRetry oracle maxR rem (att + 1) (nextDelays att delays)
      else (some ⟨false, some msg, att⟩, nextDelays att delays)

/-- Function `process_with_retry(image, output, max_retries)`: the attempt loop
`for attempt in range(max_retries)`, returning the outcome (or `none` when
the loop body never returns, i.e. `max_retries = 0`, where Python falls off
the loop returning `None`) together with the list of backoff delays slept. -/
def processWithRetry (oracle : Nat → AttemptResult) (maxR : Nat) :
    Option RetryOutcome × List Nat :=
  goRetry oracle maxR maxR 0 []

/-! ## Batch orchestrator (`BaiduOCRBatchProcessor.get_image_files` /
`process_batch`, baidu_ocr_batch_processor.py lines 30-39 and 104-135)

The directory is modelled as the list of file names it contains.  The
`sorted(...)` call is insertion sort by code-point order, matching Python's
lexicographic string ordering. -/

def imageExtensions : List String := [".jpg", ".jpeg", ".png", ".bmp", ".tiff"]

def charListLe : List Char → List Char → Bool
  | [], _ => true
  | _ :: _, [] => false
  | a :: as, b :: bs =>
    if a.toNat < b.toNat then true
    else if b.toNat < a.toNat then false
    else charListLe as bs

def strLe (a b : String) : Bool := charListLe a.data b.data

def insertSorted (x : String) : List String → List String
  | [] => [x]
  | y :: ys => if strLe x y then x :: y :: ys else y :: insertSorted x ys

def sortStrings (l : List String) : List String :=
  l.foldl (fun acc x => insertSorted x acc) []

/-- Function `get_image_files`: for each extension, glob `*{ext}` then `*{ext.upper()}`
(note: only the all-lowercase and all-uppercase spellings), then sort. -/
def getImageFiles (dirListing : List String) : List String :=
  sortStrings (imageExtensions.flatMap (fun ext =>
    dirListing.filter (fun n => strEndsWith n ext) ++
    dirListing.filter (fun n => strEndsWith n (upperStr ext))))

/-- Python `Path(name).stem`: the final path component without its last
extension (model valid for the ordinary `name.ext` file names this pipeline
discovers; leading-dot names are not produced by the glob patterns). -/
def stem (p : String) : String :=
  let base := (splitStr '/' p).getLastD ""
  let parts := splitStr '.' base
  if parts.length ≤ 1 then base else pyJoin "." parts.dropLast

/-- Artifact path derivation used by both batch entry points
(baidu_ocr_batch_processor.py line 364 and baidu_ocr_integration.py
line 382): `output_dir / f"{stem}_baidu.md"`. -/
def artifactPath (outputDir imageFile : String) : String :=
  outputDir ++ "/" ++ stem imageFile ++ "_baidu.md"

inductive BatchOutcome where
  | noFiles (message : String)
  | dispatched (tasks : List (String × String))
deriving DecidableEq, Repr

/-- Function `process_batch` up to task dispatch: enumerate image files; when none are
found return the distinguished dictionary
`{'success': False, 'message': '未找到图片文件'}`; otherwise derive one
(image file, artifact path) task per discovered file and submit them. -/
def processBatch (outputDir : String) (dirListing : List String) : BatchOutcome :=
  let files := getImageFiles dirListing
  if files = [] then .noFiles "未找到图片文件"
  else .dispatched (files.map (fun f => (f, artifactPath outputDir f)))

/-! ## Credential state (`BaiduOCRClient.__init__`, `_get_access_token`,
`_ensure_token_valid`, baidu_ocr_integration.py lines 29-66)

Wall-clock time is an explicit `now : Int`; the remote token endpoint's JSON
reply is a record with an optional `access_token` and optional `expires_in`
(`result.get('expires_in', 3600)`). -/

structure TokenResp where
  access_token : Option String
  expires_in : Option Int
deriving DecidableEq, Repr

structure ClientState where
  access_token : Option String
  token_expires : Int
deriving DecidableEq, Repr

/-- Method `_get_access_token`: on a reply carrying a token, store it and set
`token_expires = time.time() + expires_in - 300` (the 300-second safety
margin); otherwise raise. -/
def getAccessToken (now : Int) (resp : TokenResp) : Except String ClientState :=
  match resp.access_token with
  | some tok => .ok ⟨some tok, now + resp.expires_in.getD 3600 - 300⟩
  | none => .error "获取令牌失败"

/-- Constructor `__init__`: sets `access_token = None`, `token_expires = 0`, then
immediately calls `_get_access_token()` (line 37) — before any recognition
request is made. -/
def initClient (now : Int) (resp : TokenResp) : Except String ClientState :=
  getAccessToken now resp

/-- Python truthiness of `not self.access_token`: `None` and `""` count as
absent. -/
def tokenAbsent : Option String → Bool
  | none => true
  | some t => t == ""

/-- Method `_ensure_token_valid`: refresh iff
`not self.access_token or time.time() > self.token_expires`. -/
def ensureTokenValid (now : Int) (resp : TokenResp) (st : ClientState) :
    Except String ClientState :=
  if tokenAbsent st.access_token || decide (st.token_expires < now) then
    getAccessToken now resp
  else .ok st

/-! ## Processor counters (`BaiduOCRProcessor.process_single_image`,
baidu_ocr_integration.py lines 287-343)

The body is abstracted to its three completion shapes: the OCR call returns
content that strips non-empty (success path, `success_count += 1`, returns
`True`); it returns content that strips empty (`failed_count += 1`, returns
`False`); or anything in the `try` block raises and the `except` clause runs
(`failed_count += 1`, returns `False`).  The `finally` clause increments
`processed_count` on every path. -/

inductive SingleResult where
  | success
  | noContent
  | raised
deriving DecidableEq, Repr

structure Counters where
  processed : Nat
  success : Nat
  failed : Nat
deriving DecidableEq, Repr

def initCounters : Counters := ⟨0, 0, 0⟩

def processSingleImage (r : SingleResult) (c : Counters) : Counters × Bool :=
  match r with
  | .success => (⟨c.processed + 1, c.success + 1, c.failed⟩, true)
  | .noContent => (⟨c.processed + 1, c.success, c.failed + 1⟩, false)
  | .raised => (⟨c.processed + 1, c.success, c.failed + 1⟩, false)

/-- Counters after a sequence of completed `process_single_image` calls on a
freshly constructed processor. -/
def runCalls (rs : List SingleResult) : Counters :=
  rs.foldl (fun c r => (processSingleImage r c).1) initCounters

/-! ## Helper notions and lemmas -/

/-- A string one of whose characters Python does not consider whitespace
(so Python's `str.strip()` leaves it non-empty). -/
def nonWS (s : String) : Prop := ∃ c ∈ s.data, pyIsSpace c = false

instance (s : String) : Decidable (nonWS s) := by
  unfold nonWS
  infer_instance

theorem exists_mem_dropWhile (p : Char → Bool) :
    ∀ l : List Char, (∃ c ∈ l, p c = false) → ∃ c ∈ l.dropWhile p, p c = false := by
  intro l
  induction l with
  | nil => intro h; simp at h
  | cons a t ih =>
    intro h
    rw [List.dropWhile_cons]
    by_cases ha : p a
    · rw [if_pos ha]
      obtain ⟨c, hc, hpc⟩ := h
      rcases List.mem_cons.mp hc with rfl | hmem
      · rw [ha] at hpc; cases hpc
      · exact ih ⟨c, hmem, hpc⟩
    · rw [if_neg ha]
      exact ⟨a, List.mem_cons_self a t, Bool.eq_false_iff.mpr ha⟩

theorem stripChars_ne_nil {l : List Char} (h : ∃ c ∈ l, pyIsSpace c = false) :
    stripChars l ≠ [] := by
  unfold stripChars
  have h1 := exists_mem_dropWhile pyIsSpace l h
  have h2 : ∃ c ∈ (l.dropWhile pyIsSpace).reverse, pyIsSpace c = false := by
    obtain ⟨c, hc, hpc⟩ := h1
    exact ⟨c, List.mem_reverse.mpr hc, hpc⟩
  have h3 := exists_mem_dropWhile pyIsSpace _ h2
  obtain ⟨c, hc, _⟩ := h3
  intro he
  rw [List.reverse_eq_nil_iff] at he
  rw [he] at hc
  exact absurd hc (List.not_mem_nil c)

theorem pyStrip_ne_empty {s : String} (h : nonWS s) : pyStrip s ≠ "" := by
  intro he
  exact stripChars_ne_nil h (congrArg String.data he)

/-- Fidelity check: a no-break space (U+00A0) is stripped, as Python's
`str.strip()` strips it. -/
theorem pyStrip_nbsp : pyStrip "\u00A0" = "" := by decide

/-- Fidelity check: a word list holding only a no-break-space word converts
to the empty string, matching the program on
`words_result = [{'words': '\xa0', 'location': {'top': 0}}]`. -/
theorem convert_nbsp_empty : convertToMarkdown ⟨some [⟨"\u00A0", 0⟩], none⟩ = "" := by decide

theorem nonWS_append_left {a : String} (b : String) (h : nonWS a) : nonWS (a ++ b) := by
  obtain ⟨c, hc, hpc⟩ := h
  exact ⟨c, by rw [String.data_append]; exact List.mem_append_left _ hc, hpc⟩

theorem nonWS_append_right (a : String) {b : String} (h : nonWS b) : nonWS (a ++ b) := by
  obtain ⟨c, hc, hpc⟩ := h
  exact ⟨c, by rw [String.data_append]; exact List.mem_append_right _ hc, hpc⟩

theorem flushLine_ne_nil_of_lines {lines : List String} (cur : String) (h : lines ≠ []) :
    flushLine lines cur ≠ [] := by
  unfold flushLine
  split
  · exact h
  · intro he; simp at he

theorem flushLine_ne_nil_of_cur {lines : List String} {cur : String} (h : nonWS cur) :
    flushLine lines cur ≠ [] := by
  unfold flushLine
  rw [if_neg (pyStrip_ne_empty h)]
  intro he; simp at he

theorem flushLine_mem_ne {lines : List String} {cur : String}
    (h : ∀ s ∈ lines, s ≠ "") : ∀ s ∈ flushLine lines cur, s ≠ "" := by
  unfold flushLine
  split
  · exact h
  · rename_i hne
    intro s hs
    rcases List.mem_append.mp hs with hs | hs
    · exact h s hs
    · rw [List.mem_singleton.mp hs]; exact hne

theorem mdLoop_mem_ne :
    ∀ (ws : List WordBox) (cur : String) (ly : Option Int) (lines : List String),
      (∀ s ∈ lines, s ≠ "") → ∀ s ∈ mdLoop ws cur ly lines, s ≠ "" := by
  intro ws
  induction ws with
  | nil => intro cur ly lines h; exact flushLine_mem_ne h
  | cons w rest ih =>
    intro cur ly lines h
    cases ly with
    | none => simp only [mdLoop]; exact ih _ _ _ h
    | some v =>
      simp only [mdLoop]
      split
      · exact ih _ _ _ (flushLine_mem_ne h)
      · exact ih _ _ _ h

theorem mdLoop_ne_nil :
    ∀ (ws : List WordBox) (cur : String) (ly : Option Int) (lines : List String),
      (lines ≠ [] ∨ nonWS cur ∨ ∃ w ∈ ws, nonWS w.words) →
      mdLoop ws cur ly lines ≠ [] := by
  intro ws
  induction ws with
  | nil =>
    intro cur ly lines h
    simp only [mdLoop]
    rcases h with h | h | h
    · exact flushLine_ne_nil_of_lines cur h
    · exact flushLine_ne_nil_of_cur h
    · simp at h
  | cons w rest ih =>
    intro cur ly lines h
    have happend : lines ≠ [] ∨ nonWS (cur ++ " " ++ w.words) ∨
        ∃ w' ∈ rest, nonWS w'.words := by
      rcases h with h | h | ⟨w', hw', hnw⟩
      · exact Or.inl h
      · exact Or.inr (Or.inl (nonWS_append_left _ (nonWS_append_left _ h)))
      · rcases List.mem_cons.mp hw' with rfl | hmem
        · exact Or.inr (Or.inl (nonWS_append_right _ hnw))
        · exact Or.inr (Or.inr ⟨w', hmem, hnw⟩)
    cases ly with
    | none =>
      simp only [mdLoop]
      exact ih _ _ _ happend
    | some v =>
      simp only [mdLoop]
      split
      · apply ih
        rcases h with h | h | ⟨w', hw', hnw⟩
        · exact Or.inl (flushLine_ne_nil_of_lines cur h)
        · exact Or.inl (flushLine_ne_nil_of_cur h)
        · rcases List.mem_cons.mp hw' with rfl | hmem
          · exact Or.inr (Or.inl hnw)
          · exact Or.inr (Or.inr ⟨w', hmem, hnw⟩)
      · exact ih _ _ _ happend

theorem pyJoin_ne_empty :
    ∀ l : List String, l ≠ [] → (∀ s ∈ l, s ≠ "") → pyJoin "\n" l ≠ "" := by
  intro l hne hall
  match l with
  | [s] => simpa using hall s (by simp)
  | s :: t :: rest =>
    have hs : s ≠ "" := hall s (by simp)
    simp only [pyJoin]
    intro he
    have h2 : (s ++ "\n" ++ pyJoin "\n" (t :: rest)).data = [] := by rw [he]
    rw [String.data_append, String.data_append] at h2
    rcases List.append_eq_nil.mp h2 with ⟨h3, _⟩
    rcases List.append_eq_nil.mp h3 with ⟨_, h4⟩
    exact absurd h4 (by decide)

theorem nextDelays_pos {att : Nat} (delays : List Nat) (h : 1 ≤ att) :
    nextDelays att delays = delays ++ [2 ^ att] := by
  have h' : 0 < att := h
  simp [nextDelays, h']

theorem goRetry_noContent_aux (oracle : Nat → AttemptResult) (maxR : Nat)
    (h : ∀ k, oracle k = .noContent) :
    ∀ (rem att : Nat) (delays : List Nat), att + rem = maxR → 1 ≤ att → 1 ≤ rem →
      goRetry oracle maxR rem att delays =
        (some ⟨false, some genericFailMsg, maxR - 1⟩,
         delays ++ (List.range' att rem).map (fun k => 2 ^ k)) := by
  intro rem
  induction rem with
  | zero => intro att delays _ _ h2; omega
  | succ r ih =>
    intro att delays hsum hatt _
    rw [goRetry, h att]
    show (if att + 1 < maxR then goRetry oracle maxR r (att + 1) (nextDelays att delays)
          else (some ⟨false, some genericFailMsg, att⟩, nextDelays att delays)) = _
    rw [nextDelays_pos delays hatt]
    by_cases hlt : att + 1 < maxR
    · rw [if_pos hlt, ih (att + 1) (delays ++ [2 ^ att]) (by omega) (by omega) (by omega)]
      have hr : List.range' att (r + 1) = att :: List.range' (att + 1) r := rfl
      rw [hr]
      simp [List.append_assoc]
    · rw [if_neg hlt]
      have hr0 : r = 0 := by omega
      subst hr0
      have hmr : maxR = att + 1 := by omega
      subst hmr
      have hr : List.range' att (0 + 1) = att :: List.range' (att + 1) 0 := rfl
      rw [hr]
      simp

/-! ## The claims -/

/-- C1, counterexample.  The claim says that an empty-content recognition
result is a terminal condition that is NOT retried and carries a
"no content" error.  On the code, `process_single_image` returns `False` on
empty content, and `process_with_retry` treats that `False` exactly like any
other failure: with the default `max_retries = 3` and an oracle whose every
attempt yields empty content, the run ends with `retries = 2` — two further
attempts were made after the first empty-content result — and the error field
is the generic `'百度OCR处理失败'`, not a "no content" message. -/
theorem c1_empty_content_counterexample :
    processWithRetry (fun _ => AttemptResult.noContent) 3 =
      (some ⟨false, some genericFailMsg, 2⟩, [2, 4]) ∧ (2 : Nat) ≠ 0 := by decide

/-- C1, amended.  For every image whose recognition result converts to empty
markdown on every attempt, `process_with_retry` RETRIES after each
empty-content result (sleeping the same exponential backoff as for errors)
until `max_retries` attempts have been made, and then returns a failed
outcome with the generic error `'百度OCR处理失败'` and retry count
`max_retries - 1`. -/
theorem c1_empty_content_retried :
    ∀ (oracle : Nat → AttemptResult) (m : Nat),
      (∀ k, oracle k = .noContent) → 1 ≤ m →
      processWithRetry oracle m =
        (some ⟨false, some genericFailMsg, m - 1⟩,
         (List.range' 1 (m - 1)).map (fun k => 2 ^ k)) := by
  intro oracle m h hm
  obtain _ | m' := m
  · omega
  obtain _ | m'' := m'
  · unfold processWithRetry
    rw [goRetry, h 0]
    show (if 0 + 1 < 1 then goRetry oracle 1 0 (0 + 1) (nextDelays 0 [])
          else (some ⟨false, some genericFailMsg, 0⟩, nextDelays 0 [])) = _
    rw [if_neg (by omega)]
    rfl
  · unfold processWithRetry
    rw [goRetry, h 0]
    show (if 0 + 1 < m'' + 1 + 1 then
            goRetry oracle (m'' + 1 + 1) (m'' + 1) (0 + 1) (nextDelays 0 [])
          else (some ⟨false, some genericFailMsg, 0⟩, nextDelays 0 [])) = _
    rw [if_pos (by omega)]
    rw [show nextDelays 0 [] = [] from rfl]
    rw [goRetry_noContent_aux oracle (m'' + 1 + 1) h (m'' + 1) (0 + 1) [] (by omega) (by omega)
      (by omega)]
    simp

/-- C1, witness for the amended theorem: with `max_retries = 2` and an
always-empty oracle, the processor makes 2 attempts and fails with the
generic error and retry count 1, having slept once. -/
theorem c1_empty_content_retried_witness :
    processWithRetry (fun _ => AttemptResult.noContent) 2 =
      (some ⟨false, some genericFailMsg, 1⟩, [2]) := by
  exact (c1_empty_content_retried (fun _ => AttemptResult.noContent) 2 (fun k => rfl)
    (by decide)).trans (by decide)

/-- C2: when the per-image call raises on attempts 0 and 1 (e.g. with a
rate-limit error) and succeeds on attempt 2, `process_with_retry` returns a
successful outcome with retry count 2, the delays slept before retry
attempts 1 and 2 are `2^1` and `2^2` (base 2, exponent = attempt index), and
those delays are strictly increasing. -/
theorem c2_retry_policy :
    ∀ (oracle : Nat → AttemptResult) (m0 m1 : String),
      oracle 0 = .exn m0 → oracle 1 = .exn m1 → oracle 2 = .ok →
      processWithRetry oracle 3 = (some ⟨true, none, 2⟩, [2 ^ 1, 2 ^ 2]) ∧
      List.Chain' (fun a b => a < b) [2 ^ 1, 2 ^ 2] := by
  intro oracle m0 m1 h0 h1 h2
  refine ⟨?_, by simp⟩
  simp [processWithRetry, goRetry, nextDelays, h0, h1, h2]

/-- Oracle stub for the C2 witness: rate-limit failure on attempts 0 and 1,
success from attempt 2 on. -/
def c2Oracle : Nat → AttemptResult
  | 0 => .exn "qps request limit reached"
  | 1 => .exn "qps request limit reached"
  | _ => .ok

/-- C2, witness: the retry policy theorem applied to a concrete stub. -/
theorem c2_retry_policy_witness :
    processWithRetry c2Oracle 3 = (some ⟨true, none, 2⟩, [2, 4]) ∧ (2 : Nat) < 4 := by
  have h := c2_retry_policy c2Oracle "qps request limit reached" "qps request limit reached"
    rfl rfl rfl
  exact ⟨h.1.trans (by decide), by decide⟩

/-- Synthetic word sequence with the top positions {0, 5, 30, 32, 80} from
the claim. -/
def exWords : List WordBox :=
  [⟨"a", 0⟩, ⟨"b", 5⟩, ⟨"c", 30⟩, ⟨"d", 32⟩, ⟨"e", 80⟩]

/-- C3: in the word loop, a vertical delta exceeding 20 flushes the
accumulated line (trimmed, and skipped when it trims to nothing) and starts
a new line with the current word; a delta of at most 20 appends the word to
the current line separated by a space.  On the synthetic top positions
{0, 5, 30, 32, 80} this produces exactly the three lines grouped as
{0, 5}, {30, 32}, {80}. -/
theorem c3_line_grouping :
    (∀ (w : WordBox) (rest : List WordBox) (cur : String) (ly : Int) (lines : List String),
      ((w.top - ly).natAbs > 20 →
        mdLoop (w :: rest) cur (some ly) lines =
          mdLoop rest w.words (some w.top) (flushLine lines cur)) ∧
      ((w.top - ly).natAbs ≤ 20 →
        mdLoop (w :: rest) cur (some ly) lines =
          mdLoop rest (cur ++ " " ++ w.words) (some w.top) lines)) ∧
    mdLoop exWords "" none [] = ["a b", "c d", "e"] ∧
    convertToMarkdown ⟨some exWords, none⟩ = "a b\nc d\ne" ∧
    (splitStr '\n' (convertToMarkdown ⟨some exWords, none⟩)).length = 3 := by
  refine ⟨fun w rest cur ly lines => ⟨fun h => ?_, fun h => ?_⟩, by decide, by decide, by decide⟩
  · simp only [mdLoop]
    rw [if_pos h]
  · simp only [mdLoop]
    rw [if_neg (by omega)]

/-- C3, witness: one flush step (delta 100 > 20) and one append step
(delta 10 ≤ 20) at concrete inputs. -/
theorem c3_line_grouping_witness :
    mdLoop [⟨"x", 100⟩] "y" (some 0) [] = mdLoop [] "x" (some 100) (flushLine [] "y") ∧
    mdLoop [⟨"x", 10⟩] "y" (some 0) [] = mdLoop [] ("y" ++ " " ++ "x") (some 10) [] := by
  exact ⟨(c3_line_grouping.1 ⟨"x", 100⟩ [] "y" 0 []).1 (by decide),
         (c3_line_grouping.1 ⟨"x", 10⟩ [] "y" 0 []).2 (by decide)⟩

/-- C4, counterexample.  The claim says every non-empty word list produces a
non-empty string; but a non-empty word list whose only word has empty text
produces the empty string (the accumulated line strips to nothing and is
never emitted). -/
theorem c4_nonempty_words_counterexample :
    convertToMarkdown ⟨some [⟨"", 0⟩], none⟩ = "" ∧
    ([(⟨"", 0⟩ : WordBox)] : List WordBox) ≠ [] := by decide

/-- C4, amended.  For every recognition result whose word list contains at
least one word with a non-whitespace character, `convert_to_markdown`
produces a non-empty string; for an empty word list it produces the empty
string. -/
theorem c4_nonempty_output :
    (∀ (d : OCRDict) (ws : List WordBox), d.words_result = some ws →
      (∃ w ∈ ws, nonWS w.words) → convertToMarkdown d ≠ "") ∧
    (∀ d : OCRDict, d.words_result = some [] → convertToMarkdown d = "") := by
  constructor
  · intro d ws hd hw
    obtain ⟨wr, fr⟩ := d
    simp only at hd
    subst hd
    show pyJoin "\n" (mdLoop ws "" none []) ≠ ""
    apply pyJoin_ne_empty
    · exact mdLoop_ne_nil ws "" none [] (Or.inr (Or.inr hw))
    · exact mdLoop_mem_ne ws "" none [] (by simp)
  · intro d hd
    obtain ⟨wr, fr⟩ := d
    simp only at hd
    subst hd
    rfl

/-- C4, witness: a one-word list with visible text yields non-empty output. -/
theorem c4_nonempty_output_witness :
    convertToMarkdown ⟨some [⟨"hi", 0⟩], none⟩ ≠ "" := by
  exact c4_nonempty_output.1 ⟨some [⟨"hi", 0⟩], none⟩ [⟨"hi", 0⟩] rfl (by decide)

/-- Table input `[["A","B"],["1","2"],["3","4"]]` from the claim, as the
`form_result` row dictionaries. -/
def exTable : OCRDict :=
  ⟨none, some [some ["A", "B"], some ["1", "2"], some ["3", "4"]]⟩

/-- C5: whenever the extracted row list is non-empty, the first row renders
as a pipe-delimited header line followed by a separator line whose `---`
cell count equals the header's column count, and every later row as a
pipe-delimited data line; the input rows `[["A","B"],["1","2"],["3","4"]]`
yield exactly 4 lines. -/
theorem c5_table_rendering :
    (∀ (d : OCRDict) (fr : List (Option (List String))) (headers : List String)
        (rest : List (List String)),
      d.form_result = some fr → fr.filterMap id = headers :: rest →
      convertTableToMarkdown d =
        pyJoin "\n"
          (("| " ++ pyJoin " | " headers ++ " |") ::
           ("| " ++ pyJoin " | " (List.replicate headers.length "---") ++ " |") ::
           rest.map (fun r => "| " ++ pyJoin " | " r ++ " |"))) ∧
    convertTableToMarkdown exTable = "| A | B |\n| --- | --- |\n| 1 | 2 |\n| 3 | 4 |" ∧
    (splitStr '\n' (convertTableToMarkdown exTable)).length = 4 := by
  refine ⟨?_, by decide, by decide⟩
  intro d fr headers rest hd hf
  obtain ⟨wr, fr'⟩ := d
  simp only at hd
  subst hd
  have hne : fr ≠ [] := by
    intro h
    rw [h] at hf
    simp at hf
  show (if fr = [] then "" else
    match fr.filterMap id with
    | [] => ""
    | headers :: rest =>
      pyJoin "\n"
        (("| " ++ pyJoin " | " headers ++ " |") ::
         ("| " ++ pyJoin " | " (List.replicate headers.length "---") ++ " |") ::
         rest.map (fun r => "| " ++ pyJoin " | " r ++ " |"))) = _
  rw [if_neg hne, hf]

/-- C5, witness: the rendering equation applied to the concrete table. -/
theorem c5_table_rendering_witness :
    convertTableToMarkdown exTable =
      pyJoin "\n"
        (("| " ++ pyJoin " | " ["A", "B"] ++ " |") ::
         ("| " ++ pyJoin " | " (List.replicate (["A", "B"] : List String).length "---") ++ " |") ::
         ([["1", "2"], ["3", "4"]] : List (List String)).map
           (fun r => "| " ++ pyJoin " | " r ++ " |")) := by
  exact c5_table_rendering.1 exTable [some ["A", "B"], some ["1", "2"], some ["3", "4"]]
    ["A", "B"] [["1", "2"], ["3", "4"]] rfl rfl

/-- C6, counterexample.  The claim says that whenever no rows are present the
table conversion equals `convert_to_markdown` on the same input; but when the
`form_result` key is present with an empty row list, the code returns `""`
without falling back, which differs from `convert_to_markdown` whenever the
same dictionary carries a non-empty `words_result`. -/
theorem c6_fallback_counterexample :
    convertTableToMarkdown ⟨some [⟨"hello", 0⟩], some []⟩ = "" ∧
    convertToMarkdown ⟨some [⟨"hello", 0⟩], some []⟩ = "hello" ∧
    convertTableToMarkdown ⟨some [⟨"hello", 0⟩], some []⟩ ≠
      convertToMarkdown ⟨some [⟨"hello", 0⟩], some []⟩ := by decide

/-- C6, amended.  `convert_table_to_markdown` falls back to
`convert_to_markdown` exactly when the `form_result` key is absent; when the
key is present but no row is extracted from it (empty list, or no row
dictionary carrying a `'row'` key), the output is the empty string. -/
theorem c6_fallback_amended :
    (∀ d : OCRDict, d.form_result = none →
      convertTableToMarkdown d = convertToMarkdown d) ∧
    (∀ (d : OCRDict) (fr : List (Option (List String))),
      d.form_result = some fr → fr.filterMap id = [] →
      convertTableToMarkdown d = "") := by
  constructor
  · intro d hd
    obtain ⟨wr, fr⟩ := d
    simp only at hd
    subst hd
    rfl
  · intro d fr hd hf
    obtain ⟨wr, fr'⟩ := d
    simp only at hd
    subst hd
    by_cases hfr : fr = []
    · subst hfr; rfl
    · show (if fr = [] then "" else
        match fr.filterMap id with
        | [] => ""
        | headers :: rest =>
          pyJoin "\n"
            (("| " ++ pyJoin " | " headers ++ " |") ::
             ("| " ++ pyJoin " | " (List.replicate headers.length "---") ++ " |") ::
             rest.map (fun r => "| " ++ pyJoin " | " r ++ " |"))) = ""
      rw [if_neg hfr, hf]

/-- C6, witness: a dictionary without `form_result` falls back; one whose
only form row lacks the `'row'` key yields the empty string. -/
theorem c6_fallback_amended_witness :
    convertTableToMarkdown ⟨some [⟨"x", 0⟩], none⟩ =
      convertToMarkdown ⟨some [⟨"x", 0⟩], none⟩ ∧
    convertTableToMarkdown ⟨none, some [none]⟩ = "" := by
  exact ⟨c6_fallback_amended.1 ⟨some [⟨"x", 0⟩], none⟩ rfl,
         c6_fallback_amended.2 ⟨none, some [none]⟩ [none] rfl rfl⟩

/-- C7, counterexample.  The claim says the credential is lazily created on
first use, with no token obtained before the first recognition request.  On
the code, `__init__` itself calls `_get_access_token()` (line 37): right
after construction — before any recognition request — the client state
already holds a token. -/
theorem c7_lazy_counterexample :
    initClient 100 ⟨some "tok", some 3600⟩ = .ok ⟨some "tok", 3400⟩ ∧
    (⟨some "tok", 3400⟩ : ClientState).access_token ≠ none := by
  exact ⟨rfl, by decide⟩

/-- C7, amended.  The credential is created EAGERLY at client construction
(the constructor performs the token request); thereafter, before any request,
`_ensure_token_valid` refreshes exactly when the token is absent (falsy) or
the current time has passed the stored expiry, and the stored expiry equals
the acquisition time plus the declared expiry minus the 300-second safety
margin. -/
theorem c7_credential_amended :
    (∀ (now : Int) (tok : String) (ein : Option Int),
      initClient now ⟨some tok, ein⟩ = .ok ⟨some tok, now + ein.getD 3600 - 300⟩) ∧
    (∀ (now : Int) (resp : TokenResp) (st : ClientState),
      tokenAbsent st.access_token = false → now ≤ st.token_expires →
      ensureTokenValid now resp st = .ok st) ∧
    (∀ (now : Int) (resp : TokenResp) (st : ClientState),
      tokenAbsent st.access_token = true ∨ st.token_expires < now →
      ensureTokenValid now resp st = getAccessToken now resp) := by
  refine ⟨fun now tok ein => rfl, ?_, ?_⟩
  · intro now resp st h1 h2
    unfold ensureTokenValid
    rw [h1]
    simp [not_lt.mpr h2]
  · intro now resp st h
    unfold ensureTokenValid
    rcases h with h | h
    · rw [h]
      simp
    · simp [h]

/-- C7, witness: eager construction stores expiry `0 + 3600 - 300`; a valid
unexpired token is not refreshed; a missing token triggers the refresh. -/
theorem c7_credential_amended_witness :
    initClient 0 ⟨some "t", none⟩ = .ok ⟨some "t", 3300⟩ ∧
    ensureTokenValid 5 ⟨none, none⟩ ⟨some "t", 10⟩ = .ok ⟨some "t", 10⟩ ∧
    ensureTokenValid 5 ⟨some "u", some 60⟩ ⟨none, 10⟩ =
      getAccessToken 5 ⟨some "u", some 60⟩ := by
  refine ⟨(c7_credential_amended.1 0 "t" none).trans (by rfl), ?_, ?_⟩
  · exact c7_credential_amended.2.1 5 ⟨none, none⟩ ⟨some "t", 10⟩ (by decide) (by decide)
  · exact c7_credential_amended.2.2 5 ⟨some "u", some 60⟩ ⟨none, 10⟩ (Or.inl (by decide))

/-- C8, counterexample.  The claim says artifact paths are distinct for every
pair of distinct discovered files; but the derivation keeps only the stem, so
the distinct files `a.jpg` and `a.png` discovered in one batch are both
mapped to `out/a_baidu.md`. -/
theorem c8_artifact_counterexample :
    processBatch "out" ["a.jpg", "a.png"] =
      .dispatched [("a.jpg", "out/a_baidu.md"), ("a.png", "out/a_baidu.md")] ∧
    ("a.jpg" : String) ≠ "a.png" := by decide

/-- C8, amended.  The artifact path is derived deterministically from the
source file name as `output_dir / stem + "_baidu.md"`, and two image files
receive distinct artifact paths exactly when their stems differ: for every
pair of files with distinct stems the artifact paths are distinct (files
differing only in extension collide). -/
theorem c8_artifact_unique_amended :
    ∀ (outputDir f g : String), stem f ≠ stem g →
      artifactPath outputDir f ≠ artifactPath outputDir g := by
  intro out f g hne he
  apply hne
  unfold artifactPath at he
  have hd := congrArg String.data he
  simp only [String.data_append] at hd
  exact String.ext (List.append_cancel_left (List.append_cancel_right hd))

/-- C8, witness: two files with distinct stems get distinct artifact paths. -/
theorem c8_artifact_unique_amended_witness :
    artifactPath "out" "a.jpg" ≠ artifactPath "out" "b.jpg" := by
  exact c8_artifact_unique_amended "out" "a.jpg" "b.jpg" (by decide)

theorem strEndsWith_lower {s e : String} (h : strEndsWith s e = true) :
    strEndsWith (lowerStr s) (lowerStr e) = true := by
  unfold strEndsWith at h ⊢
  rw [decide_eq_true_eq] at h ⊢
  obtain ⟨hlen, hdrop⟩ := h
  unfold lowerStr
  simp only [List.length_map]
  refine ⟨hlen, ?_⟩
  rw [← List.map_drop, hdrop]

/-- C9: when the source directory contains no file whose lower-cased name
ends in one of the recognized image extensions (so in particular no image
file under any case-insensitive reading), the batch run returns the
distinguished failure dictionary `{'success': False, 'message':
'未找到图片文件'}`; the run is a total function of the listing, so no
exception is raised. -/
theorem c9_no_image_files :
    ∀ (outputDir : String) (dirListing : List String),
      (∀ n ∈ dirListing, ∀ ext ∈ imageExtensions,
        strEndsWith (lowerStr n) ext = false) →
      processBatch outputDir dirListing = .noFiles "未找到图片文件" := by
  intro out dir h
  have hfiles : getImageFiles dir = [] := by
    unfold getImageFiles
    have hflat : imageExtensions.flatMap (fun ext =>
        dir.filter (fun n => strEndsWith n ext) ++
        dir.filter (fun n => strEndsWith n (upperStr ext))) = [] := by
      rw [List.flatMap_eq_nil_iff]
      intro ext hext
      rw [List.append_eq_nil]
      constructor
      · rw [List.filter_eq_nil_iff]
        intro n hn hends
        have hl := strEndsWith_lower hends
        have hee : lowerStr ext = ext := by
          simp only [imageExtensions, List.mem_cons, List.not_mem_nil, or_false] at hext
          rcases hext with rfl | rfl | rfl | rfl | rfl <;> decide
        rw [hee] at hl
        rw [h n hn ext hext] at hl
        cases hl
      · rw [List.filter_eq_nil_iff]
        intro n hn hends
        have hl := strEndsWith_lower hends
        have hee : lowerStr (upperStr ext) = ext := by
          simp only [imageExtensions, List.mem_cons, List.not_mem_nil, or_false] at hext
          rcases hext with rfl | rfl | rfl | rfl | rfl <;> decide
        rw [hee] at hl
        rw [h n hn ext hext] at hl
        cases hl
    rw [hflat]
    rfl
  unfold processBatch
  rw [hfiles]
  rfl

/-- C9, witness: a directory holding only `readme.txt` reports the
distinguished no-files failure. -/
theorem c9_no_image_files_witness :
    processBatch "out" ["readme.txt"] = .noFiles "未找到图片文件" := by
  exact c9_no_image_files "out" ["readme.txt"] (by decide)

theorem runCalls_aux :
    ∀ (rs : List SingleResult) (c : Counters), c.processed = c.success + c.failed →
      (rs.foldl (fun c r => (processSingleImage r c).1) c).processed =
        (rs.foldl (fun c r => (processSingleImage r c).1) c).success +
        (rs.foldl (fun c r => (processSingleImage r c).1) c).failed := by
  intro rs
  induction rs with
  | nil => intro c hc; exact hc
  | cons r rest ih =>
    intro c hc
    simp only [List.foldl_cons]
    apply ih
    cases r <;> simp [processSingleImage] <;> omega

/-- C10: after every completed `process_single_image` call — success, empty
content, or an exception caught inside it — the counters of a processor that
has run any sequence of calls satisfy
`processed_count = success_count + failed_count`; the call increments
`processed_count` by one and exactly one of `success_count` / `failed_count`. -/
theorem c10_counter_invariant :
    ∀ (rs : List SingleResult) (r : SingleResult),
      ((processSingleImage r (runCalls rs)).1).processed =
          ((processSingleImage r (runCalls rs)).1).success +
          ((processSingleImage r (runCalls rs)).1).failed ∧
      ((processSingleImage r (runCalls rs)).1).processed = (runCalls rs).processed + 1 ∧
      (((processSingleImage r (runCalls rs)).1).success = (runCalls rs).success + 1 ∧
          ((processSingleImage r (runCalls rs)).1).failed = (runCalls rs).failed ∨
        ((processSingleImage r (runCalls rs)).1).failed = (runCalls rs).failed + 1 ∧
          ((processSingleImage r (runCalls rs)).1).success = (runCalls rs).success) := by
  intro rs r
  have hinv := runCalls_aux rs initCounters rfl
  cases r <;> simp [processSingleImage, runCalls] at hinv ⊢ <;> omega
